import Mathlib

/-!
Shallow embedding of the job lifecycle and progress tracking engine of the
flowdownloader backend: the FFmpeg conversion service (`ffmpegService.js`,
class `FFmpegService` plus the `jobs`/`progressTracking` maps) and the
download router (the `downloadJobs` map, `downloadVideo`, the batch route and
the hourly cleanup sweeps).  Maps are embedded as association lists, the
filesystem as the list of existing paths, timestamps as naturals
(milliseconds), and the external tools (ffmpeg, yt-dlp) as inputs: a stream
of progress events for the transcoder, a success/error outcome plus the
resulting directory listing for the fetcher.
-/

namespace FlowDownloader

/-- JS `s.includes sub`: substring containment. -/
def strIncludes (s sub : String) : Bool := decide (sub.toList <:+: s.toList)

/-- POSIX `path.join a b`. -/
def pathJoin (a b : String) : String := a ++ "/" ++ b

/-- JS `path.basename p`: the part after the last slash. -/
def pathBasename (p : String) : String := ((p.splitOn "/").getLast?).getD p

/-! ## Download jobs (`downloadJobs` map of the download router) -/

/-- The status strings stored in `downloadJobs`. -/
inductive DStatus where
  | starting
  | downloading
  | completed
  | failed
  deriving DecidableEq, Repr

/-- Terminal download statuses. -/
def DStatus.isTerminal : DStatus → Bool
  | .completed => true
  | .failed => true
  | _ => false

/-- One value of the `downloadJobs` map. -/
structure DJob where
  status : DStatus
  url : String
  format : String
  quality : String
  batchId : Option String := none
  startTime : Nat
  endTime : Option Nat := none
  progress : Nat
  outputFile : Option String := none
  fileSize : Option Nat := none
  error : Option String := none
  deriving DecidableEq, Repr

/-- The record written by `POST /` and `POST /batch` when a download job is
created: status `starting`, progress 0 (the batch route additionally stores
the shared `batchId`). -/
def initDownloadJob (url format quality : String) (batchId : Option String)
    (t0 : Nat) : DJob :=
  { status := .starting, url, format, quality, batchId, startTime := t0,
    progress := 0 }

/-- First write of `downloadVideo`: status becomes `downloading`. -/
def setDownloading (j : DJob) : DJob := { j with status := .downloading }

/-- The time-based estimate written by the progress timer:
`Math.min(90, Math.floor(elapsed / 1000) * 2)`. -/
def estimatedProgress (now startTime : Nat) : Nat :=
  min 90 (((now - startTime) / 1000) * 2)

/-- One firing of the 1-second progress timer at time `now`: it overwrites
`progress` with the estimate, but only while the job is `downloading`. -/
def tickProgress (now : Nat) (j : DJob) : DJob :=
  if j.status = .downloading then
    { j with progress := estimatedProgress now j.startTime }
  else j

/-- All timer firings of a run, in order. -/
def applyTicks (ticks : List Nat) (j : DJob) : DJob :=
  ticks.foldl (fun jc now => tickProgress now jc) j

/-- A directory entry as observed through `readdirSync` + `statSync`:
name, `isFile()`, size in bytes and modification time. -/
structure DirEntry where
  name : String
  isFile : Bool
  size : Nat
  mtime : Nat
  deriving DecidableEq, Repr

/-- The entries of the output directory that are files and whose names
contain the job id, in directory-listing order (`allFiles.filter ...`). -/
def matchingFiles (jobId : String) (dir : List DirEntry) : List DirEntry :=
  dir.filter (fun e => e.isFile && strIncludes e.name jobId)

/-- The selection `downloadedFiles[0]`: the first match in listing order,
if any. -/
def selectDownloadedFile (jobId : String) (dir : List DirEntry) :
    Option DirEntry :=
  (matchingFiles jobId dir).head?

/-- Spec-side notion for claim C7: `en` is a newest matching file — it is a
file whose name contains the job id and no other matching entry has a
strictly later modification time. -/
def isNewestMatch (jobId : String) (dir : List DirEntry) (en : DirEntry) :
    Prop :=
  en ∈ matchingFiles jobId dir ∧
    ∀ e ∈ matchingFiles jobId dir, e.mtime ≤ en.mtime

/-- Outcome of `ytDlpWrap.execPromise`: success, or an error message. -/
abbrev ExecResult := Except String Unit

/-- The terminal write of a download run.  On a yt-dlp error the rethrown
message is `yt-dlp failed: ...` and the router's catch records the failure;
on success the runner scans `outputDir` (listing `dir`), fails with
`Downloaded file not found` when no entry matches, and otherwise completes
the job with the selected file's path and size and progress 100. -/
def finishDownload (jobId outputDir : String) (execResult : ExecResult)
    (dir : List DirEntry) (tEnd : Nat) (j : DJob) : DJob :=
  match execResult with
  | .error e =>
      { j with
        status := .failed
        error := some ("yt-dlp failed: " ++ e)
        endTime := some tEnd }
  | .ok () =>
      match selectDownloadedFile jobId dir with
      | none =>
          { j with
            status := .failed
            error := some "Downloaded file not found"
            endTime := some tEnd }
      | some entry =>
          { j with
            status := .completed
            outputFile := some (pathJoin outputDir entry.name)
            fileSize := some entry.size
            endTime := some tEnd
            progress := 100 }

/-- A whole `downloadVideo` run applied to the freshly created job: set
`downloading`, let the timer fire at the times in `ticks`, then finish
according to the tool outcome and the directory listing. -/
def downloadVideoRun (jobId outputDir : String) (ticks : List Nat)
    (execResult : ExecResult) (dir : List DirEntry) (tEnd : Nat)
    (j : DJob) : DJob :=
  finishDownload jobId outputDir execResult dir tEnd
    (applyTicks ticks (setDownloading j))

/-- The successive states reached while the timer fires: the state before
any tick, then the state after each tick. -/
def downloadStates (ticks : List Nat) (j : DJob) : List DJob :=
  match ticks with
  | [] => [j]
  | t :: ts => j :: downloadStates ts (tickProgress t j)

/-- Every value the `downloadJobs` entry of one job takes during a full run:
the created record, each state of the timer phase, and the terminal state. -/
def downloadRunStates (url format quality : String) (batchId : Option String)
    (t0 : Nat) (jobId outputDir : String) (ticks : List Nat)
    (execResult : ExecResult) (dir : List DirEntry) (tEnd : Nat) :
    List DJob :=
  let j0 := initDownloadJob url format quality batchId t0
  j0 :: downloadStates ticks (setDownloading j0) ++
    [downloadVideoRun jobId outputDir ticks execResult dir tEnd j0]

/-! ## Conversion jobs (`jobs` / `progressTracking` maps of `FFmpegService`) -/

/-- The status strings stored in the `jobs` map. -/
inductive CStatus where
  | processing
  | completed
  | failed
  deriving DecidableEq, Repr

/-- Terminal conversion statuses. -/
def CStatus.isTerminal : CStatus → Bool
  | .completed => true
  | .failed => true
  | _ => false

/-- One value of the `jobs` map (a `convertVideo` job). -/
structure ConvJob where
  status : CStatus
  inputFile : String
  outputFile : String
  startTime : Nat
  endTime : Option Nat := none
  error : Option String := none
  jobType : String := "video_conversion"
  deriving DecidableEq, Repr

/-- One value of the `progressTracking` map. -/
structure ConvProgress where
  percent : ℤ
  currentFps : ℚ
  currentKbps : ℚ
  targetSize : ℚ
  timemark : String
  deriving DecidableEq, Repr

/-- A fluent-ffmpeg progress event; each field may be absent (the handlers
fall back through JS `||`). -/
structure FfmpegEvent where
  percent : Option ℚ := none
  currentFps : Option ℚ := none
  currentKbps : Option ℚ := none
  targetSize : Option ℚ := none
  timemark : Option String := none
  deriving DecidableEq, Repr

/-- JS `Math.round`: round half toward positive infinity. -/
def jsRound (q : ℚ) : ℤ := ⌊q + 1 / 2⌋

/-- The record `convertVideo` writes into `jobs` before starting the ffmpeg
command: status `processing`, with the output path `jobId.format` inside the
output directory allocated up front. -/
def initConvJob (inputFile outputDir format jobId : String) (t0 : Nat) :
    ConvJob :=
  { status := .processing
    inputFile
    outputFile := pathJoin outputDir (jobId ++ "." ++ format)
    startTime := t0 }

/-- The initial `progressTracking` record written by `convertVideo`. -/
def initConvProgress : ConvProgress :=
  { percent := 0
    currentFps := 0
    currentKbps := 0
    targetSize := 0
    timemark := "00:00:00.00" }

/-- The `on progress` handler: overwrite the tracking entry with the event's
fields, rounding the percent and defaulting absent fields. -/
def convProgressUpdate (e : FfmpegEvent) : ConvProgress :=
  { percent := jsRound (e.percent.getD 0)
    currentFps := e.currentFps.getD 0
    currentKbps := e.currentKbps.getD 0
    targetSize := e.targetSize.getD 0
    timemark := e.timemark.getD "00:00:00.00" }

/-- The `on end` handler: mark the job completed and force the tracking
percent to 100 (the two writes of the handler, taken together). -/
def convFinishSuccess (tEnd : Nat) (j : ConvJob) (p : ConvProgress) :
    ConvJob × ConvProgress :=
  ({ j with
      status := .completed
      endTime := some tEnd },
   { p with percent := 100 })

/-- The `on error` handler: mark the job failed with the tool's message;
the tracking entry is left as it was. -/
def convFinishError (msg : String) (tEnd : Nat) (j : ConvJob)
    (p : ConvProgress) : ConvJob × ConvProgress :=
  ({ j with
      status := .failed
      error := some msg
      endTime := some tEnd },
   p)

/-- All progress events of a run, applied in order (each one overwrites the
whole tracking entry, so only the last survives). -/
def applyConvEvents (events : List FfmpegEvent) (p : ConvProgress) :
    ConvProgress :=
  events.foldl (fun _ e => convProgressUpdate e) p

/-- A whole `convertVideo` run: the created records, the event stream, then
the `end` handler (when `outcome = none`) or the `error` handler (when
`outcome = some msg`, the ffmpeg error message). -/
def convertVideoRun (inputFile outputDir format jobId : String) (t0 : Nat)
    (events : List FfmpegEvent) (outcome : Option String) (tEnd : Nat) :
    ConvJob × ConvProgress :=
  let j0 := initConvJob inputFile outputDir format jobId t0
  let p := applyConvEvents events initConvProgress
  match outcome with
  | none => convFinishSuccess tEnd j0 p
  | some msg => convFinishError msg tEnd j0 p

/-- The values the `jobs` entry of one conversion job takes during a run:
the created record and the terminal record (progress events do not touch
the `jobs` map). -/
def convJobStates (inputFile outputDir format jobId : String) (t0 : Nat)
    (events : List FfmpegEvent) (outcome : Option String) (tEnd : Nat) :
    List ConvJob :=
  [initConvJob inputFile outputDir format jobId t0,
   (convertVideoRun inputFile outputDir format jobId t0 events outcome tEnd).1]

/-- The recorded percent values written by the progress handler over an
event stream, after the initial 0. -/
def convPercentWrites (events : List FfmpegEvent) : List ℤ :=
  0 :: events.map (fun e => (convProgressUpdate e).percent)

/-! ## Status queries and routes -/

/-- The `progress` field of `getProgress`'s reply: the tracking entry, or
the JS literal fallback object that only carries `percent: 0`. -/
inductive ProgressPayload where
  | full (p : ConvProgress)
  | percentZero
  deriving DecidableEq, Repr

/-- The reply shape of `FFmpegService.getProgress`. -/
structure ConvProgressView where
  jobId : String
  status : CStatus
  progress : ProgressPayload
  startTime : Nat
  endTime : Option Nat
  error : Option String
  deriving DecidableEq, Repr

/-- The query `FFmpegService.getProgress`: `null` for an unknown id, otherwise the
combined job/tracking view. -/
def getProgress (jobs : List (String × ConvJob))
    (tracking : List (String × ConvProgress)) (jobId : String) :
    Option ConvProgressView :=
  match jobs.lookup jobId with
  | none => none
  | some job =>
      some { jobId
             status := job.status
             progress := match tracking.lookup jobId with
               | some p => .full p
               | none => .percentZero
             startTime := job.startTime
             endTime := job.endTime
             error := job.error }

/-- The query `FFmpegService.getOutputFile`: the stored output path of any
known job
(whatever its status), `null` otherwise. -/
def getOutputFile (jobs : List (String × ConvJob)) (jobId : String) :
    Option String :=
  match jobs.lookup jobId with
  | some job => some job.outputFile
  | none => none

/-- Reply of the conversion progress route `GET /progress/:jobId`. -/
inductive ConvProgressResp where
  | notFound (error : String)
  | ok (v : ConvProgressView)
  deriving DecidableEq, Repr

/-- The conversion progress route: 404 `Job not found` when `getProgress`
is `null`, else 200 with the view. -/
def convProgressRoute (jobs : List (String × ConvJob))
    (tracking : List (String × ConvProgress)) (jobId : String) :
    ConvProgressResp :=
  match getProgress jobs tracking jobId with
  | none => .notFound "Job not found"
  | some v => .ok v

/-- Reply of the file-serving routes. -/
inductive FileResp where
  | notFound (error : String)
  | sendFile (path : String)
  deriving DecidableEq, Repr

/-- The conversion download route `GET /download/:jobId`: 404 `File not
found` when the id is unknown or the path does not exist on disk, else the
file is served.  `fsys` is the list of paths existing on disk. -/
def convDownloadRoute (jobs : List (String × ConvJob)) (fsys : List String)
    (jobId : String) : FileResp :=
  match getOutputFile jobs jobId with
  | none => .notFound "File not found"
  | some p => if fsys.contains p then .sendFile p else .notFound "File not found"

/-- The 200 payload of the download router's `GET /progress/:jobId`. -/
structure DownloadProgressView where
  progress : Nat
  status : DStatus
  error : Option String
  downloadUrl : Option String := none
  filename : Option String := none
  fileSize : Option Nat := none
  deriving DecidableEq, Repr

/-- Reply of the download router's progress route. -/
inductive DownloadProgressResp where
  | notFound (error : String)
  | ok (v : DownloadProgressView)
  deriving DecidableEq, Repr

/-- The download progress route: 404 `Job not found` for an unknown id;
otherwise progress/status/error, plus the download URL, filename and size
once the job is completed and has an output file. -/
def downloadProgressRoute (djobs : List (String × DJob)) (jobId : String) :
    DownloadProgressResp :=
  match djobs.lookup jobId with
  | none => .notFound "Job not found"
  | some job =>
      let base : DownloadProgressView :=
        { progress := job.progress
          status := job.status
          error := job.error }
      match job.status, job.outputFile with
      | .completed, some f =>
          .ok { base with
                downloadUrl := some ("/api/download/file/" ++ jobId)
                filename := some (pathBasename f)
                fileSize := job.fileSize }
      | _, _ => .ok base

/-! ## Job creation routes -/

/-- Reply of the conversion route `POST /video`. -/
structure PostVideoResp where
  success : Bool
  jobId : Option String := none
  message : String
  outputFile : Option String := none
  error : Option String := none
  deriving DecidableEq, Repr

/-- The conversion route `POST /video`: it `await`s `convertVideo`, so the
reply (carrying the job id) is produced only after the run has reached its
terminal state; the state of the `jobs`/`progressTracking` maps at reply
time is the run's final state.  On a rejected run it replies 500 without
the job id. -/
def postVideoRoute (inputFile outputDir format jobId : String) (t0 : Nat)
    (events : List FfmpegEvent) (outcome : Option String) (tEnd : Nat) :
    PostVideoResp × List (String × ConvJob) × List (String × ConvProgress) :=
  let r := convertVideoRun inputFile outputDir format jobId t0 events outcome tEnd
  match outcome with
  | none =>
      ({ success := true
         jobId := some jobId
         message := "Video conversion started"
         outputFile := some r.1.outputFile },
       [(jobId, r.1)], [(jobId, r.2)])
  | some msg =>
      ({ success := false
         message := msg
         error := some "Video conversion failed" },
       [(jobId, r.1)], [(jobId, r.2)])

/-- Reply of the download route `POST /`. -/
structure PostDownloadResp where
  success : Bool
  jobId : String
  message : String
  statusField : String
  deriving DecidableEq, Repr

/-- The download route `POST /`: it stores the `starting` record, fires
`downloadVideo` without awaiting it (only its synchronous prefix, which
sets `downloading`, runs before the reply), and immediately replies with
the job id.  Returns the reply and the job's map entry at reply time. -/
def postDownloadRoute (url format quality jobId : String) (t0 : Nat) :
    PostDownloadResp × (String × DJob) :=
  ({ success := true
     jobId
     message := "Download started"
     statusField := "starting" },
   (jobId, setDownloading (initDownloadJob url format quality none t0)))

/-- Reply of the batch route `POST /batch`. -/
inductive BatchResp where
  | badRequest (error : String)
  | ok (batchId : String) (jobIds : List String) (message : String)
  deriving DecidableEq, Repr

/-- The batch route `POST /batch`.  `urls = none` models a body whose
`urls` is not an array; `format`/`quality` default to `mp4`/`720p`.  It
rejects an absent/empty list and more than 10 URLs with 400 before creating
any job; otherwise it creates one `starting` job per URL (each carrying the
shared batch id, and already advanced to `downloading` by `downloadVideo`'s
synchronous prefix at reply time) with ids drawn from the uuid generator
`idGen`.  Returns the reply and the created map entries. -/
def postBatchRoute (urls : Option (List String))
    (format quality : Option String) (batchId : String)
    (idGen : Nat → String) (t0 : Nat) :
    BatchResp × List (String × DJob) :=
  let fmt := format.getD "mp4"
  let q := quality.getD "720p"
  match urls with
  | none => (.badRequest "URLs array is required", [])
  | some us =>
      if us.length = 0 then
        (.badRequest "URLs array is required", [])
      else if 10 < us.length then
        (.badRequest "Maximum 10 URLs allowed per batch", [])
      else
        let ids := (List.range us.length).map idGen
        let entries := (ids.zip us).map fun p =>
          (p.1, setDownloading (initDownloadJob p.2 fmt q (some batchId) t0))
        (.ok batchId ids
           ("Batch download started for " ++ toString us.length ++ " URLs"),
         entries)

/-! ## yt-dlp option construction (`downloadVideo`) -/

/-- The options object passed to `ytDlpWrap.execPromise`. -/
structure YtDlpOptions where
  output : String
  noPlaylist : Bool
  extractAudio : Bool := false
  audioFormat : Option String := none
  audioQuality : Option String := none
  format : Option String := none
  recodeVideo : Option String := none
  deriving DecidableEq, Repr

/-- The output template `jobId-timestamp.%(ext)s` inside the downloads
directory. -/
def outputTemplateFor (outputDir jobId : String) (timestamp : Nat) : String :=
  pathJoin outputDir (jobId ++ "-" ++ toString timestamp ++ ".%(ext)s")

/-- The quality switch of `downloadVideo`: a maximum-height selector for
the five known presets, else the initial `best`. -/
def formatSelectorFor (quality : String) : String :=
  if quality = "480p" then "best[height<=480]"
  else if quality = "720p" then "best[height<=720]"
  else if quality = "1080p" then "best[height<=1080]"
  else if quality = "1440p" then "best[height<=1440]"
  else if quality = "2160p" then "best[height<=2160]"
  else "best"

/-- The option object built by `downloadVideo`: `mp3` routes to audio
extraction with fixed container `mp3` and bitrate preset `192K`; any other
format is a video download with the quality turned into a max-height format
selector, recoding unless the requested format is `best`. -/
def buildYtDlpOptions (format quality outputTemplate : String) :
    YtDlpOptions :=
  if format = "mp3" then
    { output := outputTemplate
      noPlaylist := true
      extractAudio := true
      audioFormat := some "mp3"
      audioQuality := some "192K" }
  else
    { output := outputTemplate
      noPlaylist := true
      format := some (formatSelectorFor quality)
      recodeVideo := if format ≠ "best" then some format else none }

/-! ## Retention sweeps -/

/-- Default max-age: 24 hours in milliseconds (both sweeps; each runs on a
one-hour interval). -/
def defaultMaxAge : Nat := 24 * 60 * 60 * 1000

/-- The age test of `FFmpegService.cleanup`:
`job.endTime && (now - job.endTime) > maxAge`. -/
def convExpired (now maxAge : Nat) (j : ConvJob) : Bool :=
  match j.endTime with
  | some e => maxAge < now - e
  | none => false

/-- The state swept by `FFmpegService.cleanup`: the two maps and the set of
paths existing on disk. -/
structure ConvSweepState where
  jobs : List (String × ConvJob)
  fsys : List String
  tracking : List (String × ConvProgress)
  deriving DecidableEq, Repr

/-- The loop body of `FFmpegService.cleanup` over the map entries: for each
expired job, unlink its output file, unlink its input file when the input
path contains `uploads` (the existence checks before `unlinkSync` make the
net effect removal-if-present), and drop the job from both maps. -/
def sweepConvEntries (now maxAge : Nat) :
    List (String × ConvJob) → List String →
    List (String × ConvProgress) → ConvSweepState
  | [], fsys, tracking => ⟨[], fsys, tracking⟩
  | (jid, job) :: rest, fsys, tracking =>
      if convExpired now maxAge job then
        let fs1 := fsys.filter (fun p => p ≠ job.outputFile)
        let fs2 := if strIncludes job.inputFile "uploads" then
            fs1.filter (fun p => p ≠ job.inputFile)
          else fs1
        sweepConvEntries now maxAge rest fs2
          (tracking.filter (fun q => q.1 ≠ jid))
      else
        let r := sweepConvEntries now maxAge rest fsys tracking
        ⟨(jid, job) :: r.jobs, r.fsys, r.tracking⟩

/-- One `FFmpegService.cleanup` sweep. -/
def cleanupConv (now maxAge : Nat) (s : ConvSweepState) : ConvSweepState :=
  sweepConvEntries now maxAge s.jobs s.fsys s.tracking

/-- The age test of the download cleanup interval (same shape). -/
def downloadExpired (now maxAge : Nat) (j : DJob) : Bool :=
  match j.endTime with
  | some e => maxAge < now - e
  | none => false

/-- The loop body of the download cleanup interval: for each expired job,
unlink its output file when it has one, and drop the map entry (download
jobs have no separate tracking map). -/
def sweepDownloadEntries (now maxAge : Nat) :
    List (String × DJob) → List String →
    List (String × DJob) × List String
  | [], fsys => ([], fsys)
  | (jid, job) :: rest, fsys =>
      if downloadExpired now maxAge job then
        let fs1 := match job.outputFile with
          | some p => fsys.filter (fun q => q ≠ p)
          | none => fsys
        sweepDownloadEntries now maxAge rest fs1
      else
        let r := sweepDownloadEntries now maxAge rest fsys
        ((jid, job) :: r.1, r.2)

/-- Fixture: a conversion job that ended long before a sweep at t=1000 with
max-age 50. -/
def exOldConvJob : ConvJob :=
  { status := .completed
    inputFile := "uploads/in1.mp4"
    outputFile := "/out/a.mp4"
    startTime := 0
    endTime := some 100 }

/-- Fixture: a conversion job that ended shortly before the same sweep. -/
def exYoungConvJob : ConvJob :=
  { status := .completed
    inputFile := "uploads/in2.mp4"
    outputFile := "/out/b.mp4"
    startTime := 0
    endTime := some 960 }

/-- Fixture: the swept conversion-side state. -/
def exConvSweepState : ConvSweepState :=
  { jobs := [("a", exOldConvJob), ("b", exYoungConvJob)]
    fsys := ["/out/a.mp4", "uploads/in1.mp4", "/out/b.mp4", "uploads/in2.mp4"]
    tracking := [("a", initConvProgress), ("b", initConvProgress)] }

/-- Fixture: an old completed download job. -/
def exOldDJob : DJob :=
  { status := .completed
    url := "u1"
    format := "mp4"
    quality := "720p"
    startTime := 0
    endTime := some 100
    progress := 100
    outputFile := some "/dl/x.mp4" }

/-- Fixture: a recent completed download job. -/
def exYoungDJob : DJob :=
  { status := .completed
    url := "u2"
    format := "mp4"
    quality := "720p"
    startTime := 0
    endTime := some 960
    progress := 100
    outputFile := some "/dl/y.mp4" }

/-! ## Helper lemmas -/

theorem tickProgress_fields (now : Nat) (j : DJob) :
    (tickProgress now j).status = j.status ∧
    (tickProgress now j).outputFile = j.outputFile ∧
    (tickProgress now j).error = j.error ∧
    (tickProgress now j).fileSize = j.fileSize ∧
    (tickProgress now j).startTime = j.startTime ∧
    (tickProgress now j).endTime = j.endTime := by
  unfold tickProgress
  split <;> exact ⟨rfl, rfl, rfl, rfl, rfl, rfl⟩

theorem applyTicks_nil (j : DJob) : applyTicks [] j = j := rfl

theorem applyTicks_cons (t : Nat) (ts : List Nat) (j : DJob) :
    applyTicks (t :: ts) j = applyTicks ts (tickProgress t j) := rfl

theorem applyTicks_fields (ticks : List Nat) (j : DJob) :
    (applyTicks ticks j).status = j.status ∧
    (applyTicks ticks j).outputFile = j.outputFile ∧
    (applyTicks ticks j).error = j.error ∧
    (applyTicks ticks j).fileSize = j.fileSize ∧
    (applyTicks ticks j).startTime = j.startTime ∧
    (applyTicks ticks j).endTime = j.endTime := by
  induction ticks generalizing j with
  | nil => exact ⟨rfl, rfl, rfl, rfl, rfl, rfl⟩
  | cons t ts ih =>
      rw [applyTicks_cons]
      obtain ⟨h1, h2, h3, h4, h5, h6⟩ := ih (tickProgress t j)
      obtain ⟨g1, g2, g3, g4, g5, g6⟩ := tickProgress_fields t j
      exact ⟨h1.trans g1, h2.trans g2, h3.trans g3, h4.trans g4,
             h5.trans g5, h6.trans g6⟩

theorem finishDownload_error (jobId outputDir : String) (dir : List DirEntry)
    (tEnd : Nat) (j : DJob) (e : String) :
    finishDownload jobId outputDir (.error e) dir tEnd j =
      { j with
        status := .failed
        error := some ("yt-dlp failed: " ++ e)
        endTime := some tEnd } := rfl

theorem finishDownload_ok_none (jobId outputDir : String)
    (dir : List DirEntry) (tEnd : Nat) (j : DJob)
    (h : selectDownloadedFile jobId dir = none) :
    finishDownload jobId outputDir (.ok ()) dir tEnd j =
      { j with
        status := .failed
        error := some "Downloaded file not found"
        endTime := some tEnd } := by
  simp only [finishDownload, h]

theorem finishDownload_ok_some (jobId outputDir : String)
    (dir : List DirEntry) (tEnd : Nat) (j : DJob) (entry : DirEntry)
    (h : selectDownloadedFile jobId dir = some entry) :
    finishDownload jobId outputDir (.ok ()) dir tEnd j =
      { j with
        status := .completed
        outputFile := some (pathJoin outputDir entry.name)
        fileSize := some entry.size
        endTime := some tEnd
        progress := 100 } := by
  simp only [finishDownload, h]

theorem downloadStates_fields (ticks : List Nat) (j : DJob) :
    ∀ s ∈ downloadStates ticks j,
      s.status = j.status ∧ s.outputFile = j.outputFile ∧
      s.error = j.error ∧ s.fileSize = j.fileSize := by
  induction ticks generalizing j with
  | nil =>
      intro s hs
      rw [downloadStates, List.mem_singleton] at hs
      subst hs
      exact ⟨rfl, rfl, rfl, rfl⟩
  | cons t ts ih =>
      intro s hs
      rw [downloadStates] at hs
      rcases List.mem_cons.mp hs with h | h
      · subst h
        exact ⟨rfl, rfl, rfl, rfl⟩
      · obtain ⟨h1, h2, h3, h4⟩ := ih (tickProgress t j) s h
        obtain ⟨g1, g2, g3, g4, _, _⟩ := tickProgress_fields t j
        exact ⟨h1.trans g1, h2.trans g2, h3.trans g3, h4.trans g4⟩

theorem estimatedProgress_le_90 (now s : Nat) : estimatedProgress now s ≤ 90 := by
  unfold estimatedProgress
  omega

theorem estimatedProgress_mono (s : Nat) {a b : Nat} (h : a ≤ b) :
    estimatedProgress a s ≤ estimatedProgress b s := by
  unfold estimatedProgress
  have : (a - s) / 1000 ≤ (b - s) / 1000 :=
    Nat.div_le_div_right (by omega)
  omega

theorem tickProgress_progress_le (t : Nat) (j : DJob) (hj : j.progress ≤ 90) :
    (tickProgress t j).progress ≤ 90 := by
  by_cases hc : j.status = .downloading
  · simp only [tickProgress, if_pos hc]
    exact estimatedProgress_le_90 t j.startTime
  · simp only [tickProgress, if_neg hc]
    exact hj

theorem applyTicks_progress_le (ticks : List Nat) (j : DJob)
    (hj : j.progress ≤ 90) : (applyTicks ticks j).progress ≤ 90 := by
  induction ticks generalizing j with
  | nil => exact hj
  | cons t ts ih =>
      rw [applyTicks_cons]
      exact ih (tickProgress t j) (tickProgress_progress_le t j hj)

theorem downloadStates_progress_le (ticks : List Nat) (j : DJob)
    (hj : j.progress ≤ 90) : ∀ s ∈ downloadStates ticks j, s.progress ≤ 90 := by
  induction ticks generalizing j with
  | nil =>
      intro s hs
      rw [downloadStates, List.mem_singleton] at hs
      subst hs
      exact hj
  | cons t ts ih =>
      intro s hs
      rw [downloadStates] at hs
      rcases List.mem_cons.mp hs with rfl | h
      · exact hj
      · exact ih (tickProgress t j) (tickProgress_progress_le t j hj) s h

theorem downloadStates_append_head (ticks : List Nat) (j fin : DJob) :
    ((downloadStates ticks j ++ [fin]).map DJob.progress).head? =
      some j.progress := by
  cases ticks <;> rfl

theorem downloadStates_chain_final (ticks : List Nat) (j fin : DJob)
    (hst : j.status = .downloading)
    (hle : ∀ t ∈ ticks, j.progress ≤ estimatedProgress t j.startTime)
    (hsorted : ticks.Pairwise (· ≤ ·))
    (hfin : (applyTicks ticks j).progress ≤ fin.progress) :
    List.Chain' (· ≤ ·) ((downloadStates ticks j ++ [fin]).map DJob.progress) := by
  induction ticks generalizing j with
  | nil =>
      rw [downloadStates]
      rw [applyTicks_nil] at hfin
      simpa using hfin
  | cons t ts ih =>
      rw [downloadStates, List.cons_append, List.map_cons, List.chain'_cons']
      have hjt : (tickProgress t j).progress = estimatedProgress t j.startTime := by
        simp [tickProgress, hst]
      have hpw := List.pairwise_cons.mp hsorted
      constructor
      · intro y hy
        rw [downloadStates_append_head] at hy
        simp only [Option.mem_def, Option.some.injEq] at hy
        subst hy
        rw [hjt]
        exact hle t (List.mem_cons_self t ts)
      · apply ih (tickProgress t j)
        · exact (tickProgress_fields t j).1.trans hst
        · intro t' ht'
          have hstart : (tickProgress t j).startTime = j.startTime :=
            (tickProgress_fields t j).2.2.2.2.1
          rw [hjt, hstart]
          exact estimatedProgress_mono j.startTime (hpw.1 t' ht')
        · exact hpw.2
        · rw [← applyTicks_cons]
          exact hfin

theorem assoc_key_unique {α : Type} {l : List (String × α)}
    (h : (l.map Prod.fst).Nodup) {k : String} {a b : α}
    (ha : (k, a) ∈ l) (hb : (k, b) ∈ l) : a = b := by
  induction l with
  | nil => cases ha
  | cons x xs ih =>
      rw [List.map_cons, List.nodup_cons] at h
      rcases List.mem_cons.mp ha with h1 | h1 <;>
        rcases List.mem_cons.mp hb with h2 | h2
      · exact congrArg Prod.snd (h1.trans h2.symm)
      · subst h1
        exact absurd (List.mem_map_of_mem Prod.fst h2) h.1
      · subst h2
        exact absurd (List.mem_map_of_mem Prod.fst h1) h.1
      · exact ih h.2 h1 h2

theorem sweepConvEntries_jobs (now maxAge : Nat)
    (entries : List (String × ConvJob)) (fsys : List String)
    (tracking : List (String × ConvProgress)) :
    (sweepConvEntries now maxAge entries fsys tracking).jobs =
      entries.filter (fun en => !convExpired now maxAge en.2) := by
  induction entries generalizing fsys tracking with
  | nil => rfl
  | cons en rest ih =>
      obtain ⟨jid, job⟩ := en
      rw [sweepConvEntries]
      by_cases h : convExpired now maxAge job
      · rw [if_pos h, ih]
        simp [List.filter_cons, h]
      · rw [if_neg h]
        dsimp only
        rw [ih]
        simp [List.filter_cons, h]

theorem sweepConvEntries_fsys_mem (now maxAge : Nat)
    (entries : List (String × ConvJob)) (fsys : List String)
    (tracking : List (String × ConvProgress)) (p : String) :
    p ∈ (sweepConvEntries now maxAge entries fsys tracking).fsys ↔
      p ∈ fsys ∧ ∀ en ∈ entries, convExpired now maxAge en.2 = true →
        p ≠ en.2.outputFile ∧
        (strIncludes en.2.inputFile "uploads" = true → p ≠ en.2.inputFile) := by
  induction entries generalizing fsys tracking with
  | nil => simp [sweepConvEntries]
  | cons en rest ih =>
      obtain ⟨jid, job⟩ := en
      rw [sweepConvEntries]
      by_cases h : convExpired now maxAge job
      · rw [if_pos h]
        dsimp only
        by_cases hu : strIncludes job.inputFile "uploads"
        · rw [if_pos hu, ih]
          simp only [List.mem_filter, List.forall_mem_cons, h, hu,
            decide_eq_true_eq]
          tauto
        · rw [if_neg hu, ih]
          simp only [List.mem_filter, List.forall_mem_cons, h, hu,
            decide_eq_true_eq]
          tauto
      · rw [if_neg h]
        dsimp only
        rw [ih]
        simp only [List.forall_mem_cons, h]
        tauto

theorem sweepConvEntries_tracking_mem (now maxAge : Nat)
    (entries : List (String × ConvJob)) (fsys : List String)
    (tracking : List (String × ConvProgress)) (q : String × ConvProgress) :
    q ∈ (sweepConvEntries now maxAge entries fsys tracking).tracking ↔
      q ∈ tracking ∧ ∀ en ∈ entries, convExpired now maxAge en.2 = true →
        q.1 ≠ en.1 := by
  induction entries generalizing fsys tracking with
  | nil => simp [sweepConvEntries]
  | cons en rest ih =>
      obtain ⟨jid, job⟩ := en
      rw [sweepConvEntries]
      by_cases h : convExpired now maxAge job
      · rw [if_pos h]
        dsimp only
        by_cases hu : strIncludes job.inputFile "uploads"
        · rw [if_pos hu, ih]
          simp only [List.mem_filter, List.forall_mem_cons, h,
            decide_eq_true_eq]
          tauto
        · rw [if_neg hu, ih]
          simp only [List.mem_filter, List.forall_mem_cons, h,
            decide_eq_true_eq]
          tauto
      · rw [if_neg h]
        dsimp only
        rw [ih]
        simp only [List.forall_mem_cons, h]
        tauto

theorem sweepDownloadEntries_jobs (now maxAge : Nat)
    (entries : List (String × DJob)) (fsys : List String) :
    (sweepDownloadEntries now maxAge entries fsys).1 =
      entries.filter (fun en => !downloadExpired now maxAge en.2) := by
  induction entries generalizing fsys with
  | nil => rfl
  | cons en rest ih =>
      obtain ⟨jid, job⟩ := en
      rw [sweepDownloadEntries]
      by_cases h : downloadExpired now maxAge job
      · rw [if_pos h, ih]
        simp [List.filter_cons, h]
      · rw [if_neg h]
        dsimp only
        rw [ih]
        simp [List.filter_cons, h]

theorem sweepDownloadEntries_fsys_mem (now maxAge : Nat)
    (entries : List (String × DJob)) (fsys : List String) (p : String) :
    p ∈ (sweepDownloadEntries now maxAge entries fsys).2 ↔
      p ∈ fsys ∧ ∀ en ∈ entries, downloadExpired now maxAge en.2 = true →
        en.2.outputFile ≠ some p := by
  induction entries generalizing fsys with
  | nil => simp [sweepDownloadEntries]
  | cons en rest ih =>
      obtain ⟨jid, job⟩ := en
      rw [sweepDownloadEntries]
      by_cases h : downloadExpired now maxAge job
      · rw [if_pos h]
        dsimp only
        cases hof : job.outputFile with
        | none =>
            rw [ih]
            simp only [List.forall_mem_cons, h, hof]
            tauto
        | some x =>
            rw [ih]
            simp only [List.mem_filter, List.forall_mem_cons, h, hof,
              decide_eq_true_eq, ne_eq, Option.some.injEq]
            constructor
            · rintro ⟨⟨hpf, hne⟩, hrest⟩
              exact ⟨hpf, fun _ hxp => hne hxp.symm, hrest⟩
            · rintro ⟨hpf, hhead, hrest⟩
              exact ⟨⟨hpf, fun hpx => hhead trivial hpx.symm⟩, hrest⟩
      · rw [if_neg h]
        dsimp only
        rw [ih]
        simp only [List.forall_mem_cons, h]
        tauto

/-! ## Claim theorems -/

/-- Claim C1: while a download job is in flight (status `downloading`), the
progress value written by the once-per-second timer equals
`min(90, 2 × elapsedSeconds)` where `elapsedSeconds` is the whole number of
seconds since the job started; it is never above 90, hence below the 100
reserved for real completion. -/
theorem c1_download_progress_estimator (j : DJob) (now : Nat)
    (h : j.status = .downloading) :
    (tickProgress now j).progress = min 90 (2 * ((now - j.startTime) / 1000)) ∧
    (tickProgress now j).progress ≤ 90 ∧
    (tickProgress now j).progress < 100 := by
  have hp : (tickProgress now j).progress = estimatedProgress now j.startTime := by
    simp [tickProgress, h]
  rw [hp]
  unfold estimatedProgress
  refine ⟨?_, ?_, ?_⟩ <;> omega

/-- Witness for C1 at a concrete in-flight job, 5.5 seconds in. -/
theorem c1_witness :
    (tickProgress 5500 (setDownloading (initDownloadJob "u" "mp4" "720p" none 500))).progress
        = min 90 (2 * ((5500 - (setDownloading (initDownloadJob "u" "mp4" "720p" none 500)).startTime) / 1000)) ∧
    (tickProgress 5500 (setDownloading (initDownloadJob "u" "mp4" "720p" none 500))).progress ≤ 90 ∧
    (tickProgress 5500 (setDownloading (initDownloadJob "u" "mp4" "720p" none 500))).progress < 100 :=
  c1_download_progress_estimator (setDownloading (initDownloadJob "u" "mp4" "720p" none 500)) 5500 rfl

/-- Claim C5: every failure of a job run is caught at the task boundary and
produces the terminal `failed` state with a descriptive message; whatever
the tool outcome, a run ends in a terminal state (never stuck running).
Stated for the download runner (yt-dlp error or missing artifact, with the
router's catch recording `error.message`) and the conversion runner (the
`on error` handler). -/
theorem c5_failures_become_terminal_failed (url fmt q inputFile outputDir
    jobId : String) (bid : Option String) (t0 tEnd : Nat)
    (ticks : List Nat) (dir : List DirEntry) (e msg : String)
    (events : List FfmpegEvent) :
    (downloadVideoRun jobId outputDir ticks (.error e) dir tEnd
        (initDownloadJob url fmt q bid t0)).status = .failed ∧
    (downloadVideoRun jobId outputDir ticks (.error e) dir tEnd
        (initDownloadJob url fmt q bid t0)).error =
      some ("yt-dlp failed: " ++ e) ∧
    (∀ r : ExecResult,
      ((downloadVideoRun jobId outputDir ticks r dir tEnd
          (initDownloadJob url fmt q bid t0)).status).isTerminal = true) ∧
    (convertVideoRun inputFile outputDir fmt jobId t0 events (some msg)
        tEnd).1.status = .failed ∧
    (convertVideoRun inputFile outputDir fmt jobId t0 events (some msg)
        tEnd).1.error = some msg ∧
    (∀ oc : Option String,
      ((convertVideoRun inputFile outputDir fmt jobId t0 events oc
          tEnd).1.status).isTerminal = true) := by
  refine ⟨?_, ?_, ?_, rfl, rfl, ?_⟩
  · rw [downloadVideoRun, finishDownload_error]
  · rw [downloadVideoRun, finishDownload_error]
  · intro r
    rw [downloadVideoRun]
    rcases r with e' | u
    · rw [finishDownload_error]; rfl
    · cases u
      cases h : selectDownloadedFile jobId dir with
      | none => rw [finishDownload_ok_none _ _ _ _ _ h]; rfl
      | some entry => rw [finishDownload_ok_some _ _ _ _ _ _ h]; rfl
  · intro oc
    cases oc <;> rfl

/-- Claim C8: a requested quality preset becomes a maximum-height selector
`best[height<=H]` (480/720/1080/1440/2160), and format `mp3` (the audio
format) routes to audio extraction with fixed container `mp3` and bitrate
preset `192K`. -/
theorem c8_fetch_format_quality_mapping :
    (∀ q t, buildYtDlpOptions "mp3" q t =
      ⟨t, true, true, some "mp3", some "192K", none, none⟩) ∧
    (formatSelectorFor "480p" = "best[height<=480]" ∧
     formatSelectorFor "720p" = "best[height<=720]" ∧
     formatSelectorFor "1080p" = "best[height<=1080]" ∧
     formatSelectorFor "1440p" = "best[height<=1440]" ∧
     formatSelectorFor "2160p" = "best[height<=2160]") ∧
    (∀ f q t, f ≠ "mp3" →
      (buildYtDlpOptions f q t).format = some (formatSelectorFor q) ∧
      (buildYtDlpOptions f q t).extractAudio = false ∧
      (buildYtDlpOptions f q t).audioFormat = none) := by
  refine ⟨?_, ⟨by decide, by decide, by decide, by decide, by decide⟩, ?_⟩
  · intro q t
    rw [buildYtDlpOptions, if_pos rfl]
  · intro f q t hf
    rw [buildYtDlpOptions, if_neg hf]
    exact ⟨rfl, rfl, rfl⟩

/-- Witness for C8 on a concrete non-audio format. -/
theorem c8_witness :
    buildYtDlpOptions "mp3" "720p" "tpl" =
      ⟨"tpl", true, true, some "mp3", some "192K", none, none⟩ ∧
    (buildYtDlpOptions "mp4" "1080p" "tpl").format =
      some (formatSelectorFor "1080p") :=
  ⟨c8_fetch_format_quality_mapping.1 "720p" "tpl",
   (c8_fetch_format_quality_mapping.2.2 "mp4" "1080p" "tpl" (by decide)).1⟩

/-- Claim C9: querying status/progress or the output path for an id absent
from the job stores yields a 404 not-found reply with an error message (the
conversion progress route, the conversion file route and the download
progress route); the total route functions never fault. -/
theorem c9_unknown_id_not_found (jobs : List (String × ConvJob))
    (tracking : List (String × ConvProgress)) (fsys : List String)
    (djobs : List (String × DJob)) (jobId : String)
    (hc : jobs.lookup jobId = none) (hd : djobs.lookup jobId = none) :
    convProgressRoute jobs tracking jobId = .notFound "Job not found" ∧
    convDownloadRoute jobs fsys jobId = .notFound "File not found" ∧
    downloadProgressRoute djobs jobId = .notFound "Job not found" := by
  refine ⟨?_, ?_, ?_⟩
  · rw [convProgressRoute]
    simp only [getProgress, hc]
  · rw [convDownloadRoute]
    simp only [getOutputFile, hc]
  · rw [downloadProgressRoute]
    simp only [hd]

/-- Witness for C9 on empty stores and a random id. -/
theorem c9_witness :
    convProgressRoute [] [] "nope" = .notFound "Job not found" ∧
    convDownloadRoute [] [] "nope" = .notFound "File not found" ∧
    downloadProgressRoute [] "nope" = .notFound "Job not found" :=
  c9_unknown_id_not_found [] [] [] [] "nope" rfl rfl

/-- Claim C10 (implicit): the batch route rejects a missing/empty URL array
and any request with more than 10 URLs with a 400 reply before creating any
job, so one batch request creates at most 10 jobs (and exactly one per URL
otherwise). -/
theorem c10_batch_input_bound (format quality : Option String)
    (batchId : String) (idGen : Nat → String) (t0 : Nat) :
    (postBatchRoute none format quality batchId idGen t0 =
      (.badRequest "URLs array is required", [])) ∧
    (∀ us : List String, us.length = 0 →
      postBatchRoute (some us) format quality batchId idGen t0 =
        (.badRequest "URLs array is required", [])) ∧
    (∀ us : List String, 10 < us.length →
      postBatchRoute (some us) format quality batchId idGen t0 =
        (.badRequest "Maximum 10 URLs allowed per batch", [])) ∧
    (∀ us : List String,
      (postBatchRoute (some us) format quality batchId idGen t0).2.length ≤ 10) ∧
    (∀ us : List String, us.length ≤ 10 →
      (postBatchRoute (some us) format quality batchId idGen t0).2.length
        = us.length) := by
  refine ⟨rfl, ?_, ?_, ?_, ?_⟩
  · intro us h
    rw [postBatchRoute]
    simp only [if_pos h]
  · intro us h
    rw [postBatchRoute]
    rw [if_neg (by omega), if_pos h]
  · intro us
    rw [postBatchRoute]
    by_cases h0 : us.length = 0
    · rw [if_pos h0]
      simp
    · rw [if_neg h0]
      by_cases h10 : 10 < us.length
      · rw [if_pos h10]
        simp
      · rw [if_neg h10]
        simp
        omega
  · intro us h
    rw [postBatchRoute]
    by_cases h0 : us.length = 0
    · rw [if_pos h0]
      simp [h0]
    · rw [if_neg h0, if_neg (by omega)]
      simp

/-- Witness for C10: a 2-URL batch creates 2 jobs; an 11-URL batch is
rejected with no job created. -/
theorem c10_witness :
    (postBatchRoute (some ["u1", "u2"]) none none "b" (fun n => toString n)
        7).2.length = 2 ∧
    postBatchRoute (some ["1", "2", "3", "4", "5", "6", "7", "8", "9", "10",
        "11"]) none none "b" (fun n => toString n) 7 =
      (.badRequest "Maximum 10 URLs allowed per batch", []) :=
  ⟨(c10_batch_input_bound none none "b" (fun n => toString n) 7).2.2.2.2
      ["u1", "u2"] (by decide),
   (c10_batch_input_bound none none "b" (fun n => toString n) 7).2.2.1
      ["1", "2", "3", "4", "5", "6", "7", "8", "9", "10", "11"] (by decide)⟩

/-- Claim C3 counterexample: the record `convertVideo` stores at creation
already carries the output path while the job is still `processing` (and
keeps it if the job fails), and `getOutputFile` exposes it; so "output
present iff Completed" is false for conversion jobs. -/
theorem c3_counterexample :
    (initConvJob "uploads/in.mp4" "/out" "mp4" "j1" 0).status = .processing ∧
    (initConvJob "uploads/in.mp4" "/out" "mp4" "j1" 0).status ≠ .completed ∧
    getOutputFile [("j1", initConvJob "uploads/in.mp4" "/out" "mp4" "j1" 0)]
        "j1" = some "/out/j1.mp4" := by
  refine ⟨rfl, by decide, by decide⟩

/-- Claim C3 (amended): for download jobs the output path and size are
present iff the job is `completed` and the error iff it is `failed`, at
every point of the run; for conversion jobs the error is present iff the
job is `failed`, but the output path is stored from creation (status
`processing`) onward, regardless of status. -/
theorem c3_output_error_iff_terminal (url fmt q inputFile outputDir cfmt
    jobId : String) (bid : Option String) (t0 tEnd : Nat) (ticks : List Nat)
    (r : ExecResult) (dir : List DirEntry) (events : List FfmpegEvent)
    (outcome : Option String) :
    (∀ s ∈ downloadRunStates url fmt q bid t0 jobId outputDir ticks r dir
        tEnd,
       (s.outputFile.isSome ↔ s.status = .completed) ∧
       (s.fileSize.isSome ↔ s.status = .completed) ∧
       (s.error.isSome ↔ s.status = .failed)) ∧
    (∀ c ∈ convJobStates inputFile outputDir cfmt jobId t0 events outcome
        tEnd,
       (c.error.isSome ↔ c.status = .failed) ∧
       c.outputFile = pathJoin outputDir (jobId ++ "." ++ cfmt)) := by
  constructor
  · intro s hs
    simp only [downloadRunStates, List.mem_cons, List.mem_append,
      List.mem_singleton, List.not_mem_nil, or_false] at hs
    rcases hs with (rfl | hs) | rfl
    · refine ⟨?_, ?_, ?_⟩ <;> simp [initDownloadJob]
    · obtain ⟨h1, h2, h3, h4⟩ := downloadStates_fields _ _ s hs
      refine ⟨?_, ?_, ?_⟩ <;>
        simp [h1, h2, h3, h4, setDownloading, initDownloadJob]
    · rw [downloadVideoRun]
      obtain ⟨ha1, ha2, ha3, ha4, _, _⟩ :=
        applyTicks_fields ticks
          (setDownloading (initDownloadJob url fmt q bid t0))
      have h2 : (applyTicks ticks
          (setDownloading (initDownloadJob url fmt q bid t0))).outputFile
          = none := ha2.trans rfl
      have h4 : (applyTicks ticks
          (setDownloading (initDownloadJob url fmt q bid t0))).fileSize
          = none := ha4.trans rfl
      have h3 : (applyTicks ticks
          (setDownloading (initDownloadJob url fmt q bid t0))).error
          = none := ha3.trans rfl
      rcases r with e | u
      · rw [finishDownload_error]
        refine ⟨?_, ?_, ?_⟩ <;> simp [h2, h3, h4]
      · cases u
        cases hsel : selectDownloadedFile jobId dir with
        | none =>
            rw [finishDownload_ok_none _ _ _ _ _ hsel]
            refine ⟨?_, ?_, ?_⟩ <;> simp [h2, h3, h4]
        | some entry =>
            rw [finishDownload_ok_some _ _ _ _ _ _ hsel]
            refine ⟨?_, ?_, ?_⟩ <;> simp [h2, h3, h4]
  · intro c hc
    rw [convJobStates] at hc
    rcases List.mem_cons.mp hc with rfl | hc
    · exact ⟨by simp [initConvJob], rfl⟩
    · rw [List.mem_singleton] at hc
      subst hc
      cases outcome with
      | none => exact ⟨by simp [convertVideoRun, convFinishSuccess,
          applyConvEvents, initConvJob], rfl⟩
      | some msg => exact ⟨by simp [convertVideoRun, convFinishError,
          applyConvEvents, initConvJob], rfl⟩

/-- Witness for C3 at the created state of a concrete download run and the
created state of a concrete conversion run. -/
theorem c3_witness :
    ((initDownloadJob "u" "mp4" "720p" none 0).outputFile.isSome ↔
      (initDownloadJob "u" "mp4" "720p" none 0).status = .completed) ∧
    ((initDownloadJob "u" "mp4" "720p" none 0).fileSize.isSome ↔
      (initDownloadJob "u" "mp4" "720p" none 0).status = .completed) ∧
    ((initDownloadJob "u" "mp4" "720p" none 0).error.isSome ↔
      (initDownloadJob "u" "mp4" "720p" none 0).status = .failed) :=
  (c3_output_error_iff_terminal "u" "mp4" "720p" "uploads/in.mp4" "/out"
      "mp4" "j" none 0 9 [] (.ok ()) [] [] none).1
    (initDownloadJob "u" "mp4" "720p" none 0) (by decide)

/-- Claim C4 counterexample: the conversion route `POST /video` awaits the
whole run, so the caller receives the job id only together with a reply
produced after the job is already terminal; a status query issued
immediately after creation returns `completed`, not a non-terminal
status. -/
theorem c4_counterexample :
    (postVideoRoute "uploads/in.mp4" "/out" "mp4" "j1" 0 [] none 5).1.jobId
        = some "j1" ∧
    ((postVideoRoute "uploads/in.mp4" "/out" "mp4" "j1" 0 [] none
        5).2.1.lookup "j1").map ConvJob.status = some .completed ∧
    CStatus.completed.isTerminal = true := by
  refine ⟨rfl, by decide, rfl⟩

/-- Claim C4 (amended): the single and batch download routes reply with the
job id while every created job is still non-terminal (`downloading`); the
conversion route awaits the run, so its reply carries the id only once the
stored job is terminal. -/
theorem c4_creation_reply_status (url fmt q jobId inputFile outputDir cfmt
    batchId : String) (t0 tEnd : Nat) (urls : List String)
    (idGen : Nat → String) (fo qo : Option String)
    (events : List FfmpegEvent) (outcome : Option String) :
    ((postDownloadRoute url fmt q jobId t0).1.jobId = jobId ∧
     (postDownloadRoute url fmt q jobId t0).2.2.status = .downloading ∧
     ((postDownloadRoute url fmt q jobId t0).2.2.status).isTerminal
        = false) ∧
    (∀ en ∈ (postBatchRoute (some urls) fo qo batchId idGen t0).2,
       en.2.status = .downloading ∧ (en.2.status).isTerminal = false) ∧
    (∀ en ∈ (postVideoRoute inputFile outputDir cfmt jobId t0 events
        outcome tEnd).2.1, (en.2.status).isTerminal = true) := by
  refine ⟨⟨rfl, rfl, rfl⟩, ?_, ?_⟩
  · intro en hen
    rw [postBatchRoute] at hen
    by_cases h0 : urls.length = 0
    · rw [if_pos h0] at hen
      simp at hen
    · rw [if_neg h0] at hen
      by_cases h10 : 10 < urls.length
      · rw [if_pos h10] at hen
        simp at hen
      · rw [if_neg h10] at hen
        simp only [List.mem_map] at hen
        obtain ⟨p, hp, rfl⟩ := hen
        exact ⟨rfl, rfl⟩
  · intro en hen
    cases outcome with
    | none =>
        simp only [postVideoRoute, List.mem_singleton] at hen
        subst hen
        rfl
    | some msg =>
        simp only [postVideoRoute, List.mem_singleton] at hen
        subst hen
        rfl

/-- Witness for C4 on a one-URL batch and a concrete failed conversion. -/
theorem c4_witness :
    ((("id0", setDownloading (initDownloadJob "u1" "mp4" "720p" (some "b")
        3)) : String × DJob).2.status = .downloading ∧
      ((("id0", setDownloading (initDownloadJob "u1" "mp4" "720p" (some "b")
        3)) : String × DJob).2.status).isTerminal = false) ∧
    (((("j2",
        (convertVideoRun "in.mp4" "/out" "mp4" "j2" 0 [] (some "boom")
          9).1) : String × ConvJob).2.status).isTerminal = true) :=
  ⟨(c4_creation_reply_status "u" "mp4" "720p" "j" "in.mp4" "/out" "mp4" "b"
      3 9 ["u1"] (fun n => "id" ++ toString n) none none [] (some "boom")).2.1
      _ (by decide),
   (c4_creation_reply_status "u" "mp4" "720p" "j2" "in.mp4" "/out" "mp4" "b"
      0 9 ["u1"] (fun n => "id" ++ toString n) none none [] (some "boom")).2.2
      _ (by decide)⟩

/-- Claim C7 counterexample: after a successful fetch the runner takes
`downloadedFiles[0]` — the first matching entry in directory-listing order —
not the newest matching file: with two matches where the first listed is
older, the older one is selected. -/
theorem c7_counterexample :
    selectDownloadedFile "j7"
        [⟨"j7-100.mp4", true, 5, 10⟩, ⟨"j7-200.mp4", true, 6, 20⟩] =
      some ⟨"j7-100.mp4", true, 5, 10⟩ ∧
    ¬ isNewestMatch "j7"
        [⟨"j7-100.mp4", true, 5, 10⟩, ⟨"j7-200.mp4", true, 6, 20⟩]
        ⟨"j7-100.mp4", true, 5, 10⟩ := by
  constructor
  · decide
  · intro h
    exact absurd (h.2 ⟨"j7-200.mp4", true, 6, 20⟩ (by decide)) (by decide)

/-- Claim C7 (amended): after the tool reports success the runner scans the
output directory for files whose names contain the job id and selects the
first such entry in listing order (not the newest); zero matches ends the
job `failed` with the `Downloaded file not found` error. -/
theorem c7_artifact_discovery (url fmt q jobId outputDir : String)
    (bid : Option String) (t0 tEnd : Nat) (ticks : List Nat)
    (dir : List DirEntry) :
    (matchingFiles jobId dir = [] →
      (downloadVideoRun jobId outputDir ticks (.ok ()) dir tEnd
          (initDownloadJob url fmt q bid t0)).status = .failed ∧
      (downloadVideoRun jobId outputDir ticks (.ok ()) dir tEnd
          (initDownloadJob url fmt q bid t0)).error =
        some "Downloaded file not found") ∧
    (∀ f rest, matchingFiles jobId dir = f :: rest →
      (downloadVideoRun jobId outputDir ticks (.ok ()) dir tEnd
          (initDownloadJob url fmt q bid t0)).status = .completed ∧
      (downloadVideoRun jobId outputDir ticks (.ok ()) dir tEnd
          (initDownloadJob url fmt q bid t0)).outputFile =
        some (pathJoin outputDir f.name) ∧
      (downloadVideoRun jobId outputDir ticks (.ok ()) dir tEnd
          (initDownloadJob url fmt q bid t0)).fileSize = some f.size) := by
  constructor
  · intro h
    have hsel : selectDownloadedFile jobId dir = none := by
      rw [selectDownloadedFile, h]
      rfl
    rw [downloadVideoRun, finishDownload_ok_none _ _ _ _ _ hsel]
    exact ⟨rfl, rfl⟩
  · intro f rest h
    have hsel : selectDownloadedFile jobId dir = some f := by
      rw [selectDownloadedFile, h]
      rfl
    rw [downloadVideoRun, finishDownload_ok_some _ _ _ _ _ _ hsel]
    exact ⟨rfl, rfl, rfl⟩

/-- Witness for C7: a run over a listing with one matching file completes
with that file; a run over an empty listing fails. -/
theorem c7_witness :
    ((downloadVideoRun "j7" "/dl" [] (.ok ()) [⟨"j7-9.mp4", true, 5, 10⟩] 9
        (initDownloadJob "u" "mp4" "720p" none 0)).status = .completed ∧
      (downloadVideoRun "j7" "/dl" [] (.ok ()) [⟨"j7-9.mp4", true, 5, 10⟩] 9
        (initDownloadJob "u" "mp4" "720p" none 0)).outputFile =
        some (pathJoin "/dl" (DirEntry.mk "j7-9.mp4" true 5 10).name) ∧
      (downloadVideoRun "j7" "/dl" [] (.ok ()) [⟨"j7-9.mp4", true, 5, 10⟩] 9
        (initDownloadJob "u" "mp4" "720p" none 0)).fileSize =
        some (DirEntry.mk "j7-9.mp4" true 5 10).size) ∧
    ((downloadVideoRun "j7" "/dl" [] (.ok ()) [] 9
        (initDownloadJob "u" "mp4" "720p" none 0)).status = .failed ∧
      (downloadVideoRun "j7" "/dl" [] (.ok ()) [] 9
        (initDownloadJob "u" "mp4" "720p" none 0)).error =
        some "Downloaded file not found") :=
  ⟨(c7_artifact_discovery "u" "mp4" "720p" "j7" "/dl" none 0 9 []
      [⟨"j7-9.mp4", true, 5, 10⟩]).2 ⟨"j7-9.mp4", true, 5, 10⟩ [] (by decide),
   (c7_artifact_discovery "u" "mp4" "720p" "j7" "/dl" none 0 9 [] []).1
      (by decide)⟩

/-- Claim C2 counterexample: the conversion progress handler records the
rounded tool-reported percent unguarded, so the recorded sequence decreases
when the tool's reports do ([50, 30]) and leaves the 0–100 range when a
report does (150); the claim's per-job invariant is false for conversion
jobs. -/
theorem c2_counterexample :
    convPercentWrites [{ percent := some 50 }, { percent := some 30 }] =
      [0, 50, 30] ∧
    ¬ List.Chain' (· ≤ ·)
        (convPercentWrites [{ percent := some 50 }, { percent := some 30 }]) ∧
    (convProgressUpdate { percent := some 150 }).percent = 150 := by
  have h50 : jsRound (50 : ℚ) = 50 := by
    unfold jsRound
    rw [Int.floor_eq_iff]
    norm_num
  have h30 : jsRound (30 : ℚ) = 30 := by
    unfold jsRound
    rw [Int.floor_eq_iff]
    norm_num
  have h150 : jsRound (150 : ℚ) = 150 := by
    unfold jsRound
    rw [Int.floor_eq_iff]
    norm_num
  have h1 : convPercentWrites [{ percent := some 50 },
      { percent := some 30 }] = [0, 50, 30] := by
    simp only [convPercentWrites, convProgressUpdate, List.map_cons,
      List.map_nil, Option.getD_some]
    rw [h50, h30]
  refine ⟨h1, ?_, ?_⟩
  · rw [h1]
    intro h
    have hle : (50 : ℤ) ≤ 30 :=
      (List.chain'_cons.mp (List.chain'_cons.mp h).2).1
    omega
  · simp only [convProgressUpdate, Option.getD_some]
    exact h150

/-- Claim C2 (amended): for download jobs the recorded progress is an
integer in 0–100, non-decreasing over the run's writes whenever the timer
fires at non-decreasing times, and equals 100 exactly in the `completed`
state (written together with the transition); for conversion jobs the
completion write does set percent 100 atomically with `completed`, but the
intermediate writes mirror the tool's reports, so monotonicity and the
0–100 range hold only if those reports satisfy them. -/
theorem c2_progress_monotonicity (url fmt q jobId outputDir : String)
    (bid : Option String) (t0 tEnd : Nat) (ticks : List Nat)
    (r : ExecResult) (dir : List DirEntry) (cj : ConvJob)
    (cp : ConvProgress) (hsorted : ticks.Pairwise (· ≤ ·)) :
    List.Chain' (· ≤ ·)
      ((downloadRunStates url fmt q bid t0 jobId outputDir ticks r dir
        tEnd).map DJob.progress) ∧
    (∀ s ∈ downloadRunStates url fmt q bid t0 jobId outputDir ticks r dir
        tEnd, s.progress ≤ 100 ∧ (s.progress = 100 ↔ s.status = .completed)) ∧
    ((convFinishSuccess tEnd cj cp).1.status = .completed ∧
     (convFinishSuccess tEnd cj cp).2.percent = 100) := by
  have happ90 : (applyTicks ticks
      (setDownloading (initDownloadJob url fmt q bid t0))).progress ≤ 90 :=
    applyTicks_progress_le ticks _ (by exact Nat.zero_le 90)
  refine ⟨?_, ?_, rfl, rfl⟩
  · rw [downloadRunStates, List.cons_append, List.map_cons, List.chain'_cons']
    constructor
    · intro y hy
      rw [downloadStates_append_head] at hy
      simp only [Option.mem_def, Option.some.injEq] at hy
      subst hy
      exact Nat.le.refl
    · apply downloadStates_chain_final
      · rfl
      · intro t ht
        exact Nat.zero_le _
      · exact hsorted
      · rcases r with e | u
        · rw [downloadVideoRun, finishDownload_error]
        · cases u
          cases hsel : selectDownloadedFile jobId dir with
          | none =>
              rw [downloadVideoRun, finishDownload_ok_none _ _ _ _ _ hsel]
          | some entry =>
              rw [downloadVideoRun, finishDownload_ok_some _ _ _ _ _ _ hsel]
              dsimp only
              omega
  · intro s hs
    simp only [downloadRunStates, List.mem_cons, List.mem_append,
      List.mem_singleton, List.not_mem_nil, or_false] at hs
    rcases hs with (rfl | hs) | rfl
    · exact ⟨by simp [initDownloadJob], by simp [initDownloadJob]⟩
    · have h90 := downloadStates_progress_le ticks _ (Nat.zero_le 90) s hs
      have hst : s.status = .downloading :=
        (downloadStates_fields _ _ s hs).1.trans rfl
      refine ⟨by omega, ?_⟩
      rw [hst]
      constructor
      · intro hp
        exact absurd hp (by omega)
      · intro hc
        cases hc
    · rcases r with e | u
      · rw [downloadVideoRun, finishDownload_error]
        dsimp only
        refine ⟨by omega, ?_⟩
        constructor
        · intro hp
          exact absurd hp (by omega)
        · intro hc
          cases hc
      · cases u
        cases hsel : selectDownloadedFile jobId dir with
        | none =>
            rw [downloadVideoRun, finishDownload_ok_none _ _ _ _ _ hsel]
            dsimp only
            refine ⟨by omega, ?_⟩
            constructor
            · intro hp
              exact absurd hp (by omega)
            · intro hc
              cases hc
        | some entry =>
            rw [downloadVideoRun, finishDownload_ok_some _ _ _ _ _ _ hsel]
            dsimp only
            exact ⟨by omega, by simp⟩

/-- Witness for C2 on a concrete download run (two sorted timer ticks, then
a successful completion) and a concrete conversion completion write. -/
theorem c2_witness :
    List.Chain' (· ≤ ·)
      ((downloadRunStates "u" "mp4" "720p" none 0 "j7" "/dl" [1000, 3000]
        (.ok ()) [⟨"j7-9.mp4", true, 5, 10⟩] 9000).map DJob.progress) ∧
    ((convFinishSuccess 9 (initConvJob "in.mp4" "/out" "mp4" "j2" 0)
        initConvProgress).1.status = .completed ∧
     (convFinishSuccess 9 (initConvJob "in.mp4" "/out" "mp4" "j2" 0)
        initConvProgress).2.percent = 100) :=
  ⟨(c2_progress_monotonicity "u" "mp4" "720p" "j7" "/dl" none 0 9000
      [1000, 3000] (.ok ()) [⟨"j7-9.mp4", true, 5, 10⟩]
      (initConvJob "in.mp4" "/out" "mp4" "j2" 0) initConvProgress
      (by decide)).1,
   (c2_progress_monotonicity "u" "mp4" "720p" "j7" "/dl" none 0 9000
      [1000, 3000] (.ok ()) [⟨"j7-9.mp4", true, 5, 10⟩]
      (initConvJob "in.mp4" "/out" "mp4" "j2" 0) initConvProgress
      (by decide)).2.2⟩

/-- Claim C6: after one sweep cycle, every terminal job whose end time is
older than max-age is gone from the registry, the tracker and the disk (its
output file, and its input file when it lies in the uploads staging area);
every job whose end time is younger than max-age keeps its registry and
tracker entries, and its files stay on disk provided they differ from the
paths deleted for expired jobs (the job-id-derived naming discipline).
Stated for the conversion sweep (`FFmpegService.cleanup`) and the download
sweep. -/
theorem c6_retention_sweep (now maxAge : Nat) (s : ConvSweepState)
    (djobs : List (String × DJob)) (dfsys : List String)
    (hnodup : (s.jobs.map Prod.fst).Nodup)
    (hdnodup : (djobs.map Prod.fst).Nodup) :
    (∀ jid job e, (jid, job) ∈ s.jobs → job.status.isTerminal = true →
       job.endTime = some e → maxAge < now - e →
       (∀ j', (jid, j') ∉ (cleanupConv now maxAge s).jobs) ∧
       (∀ pr, (jid, pr) ∉ (cleanupConv now maxAge s).tracking) ∧
       job.outputFile ∉ (cleanupConv now maxAge s).fsys ∧
       (strIncludes job.inputFile "uploads" = true →
         job.inputFile ∉ (cleanupConv now maxAge s).fsys)) ∧
    (∀ jid job e, (jid, job) ∈ s.jobs → job.endTime = some e →
       now - e ≤ maxAge →
       (jid, job) ∈ (cleanupConv now maxAge s).jobs ∧
       (∀ pr, (jid, pr) ∈ s.tracking →
         (jid, pr) ∈ (cleanupConv now maxAge s).tracking) ∧
       (∀ p, p ∈ s.fsys →
         (∀ en ∈ s.jobs, convExpired now maxAge en.2 = true →
           p ≠ en.2.outputFile ∧ p ≠ en.2.inputFile) →
         p ∈ (cleanupConv now maxAge s).fsys)) ∧
    (∀ jid job e, (jid, job) ∈ djobs → job.status.isTerminal = true →
       job.endTime = some e → maxAge < now - e →
       (∀ j', (jid, j') ∉ (sweepDownloadEntries now maxAge djobs dfsys).1) ∧
       (∀ p, job.outputFile = some p →
         p ∉ (sweepDownloadEntries now maxAge djobs dfsys).2)) ∧
    (∀ jid job e, (jid, job) ∈ djobs → job.endTime = some e →
       now - e ≤ maxAge →
       (jid, job) ∈ (sweepDownloadEntries now maxAge djobs dfsys).1 ∧
       (∀ p, p ∈ dfsys →
         (∀ en ∈ djobs, downloadExpired now maxAge en.2 = true →
           en.2.outputFile ≠ some p) →
         p ∈ (sweepDownloadEntries now maxAge djobs dfsys).2)) := by
  have hdn : ∀ jid : String, ∀ j' : DJob,
      (jid, j') ∈ (sweepDownloadEntries now maxAge djobs dfsys).1 ↔
      (jid, j') ∈ djobs ∧ downloadExpired now maxAge j' = false := by
    intro jid j'
    rw [sweepDownloadEntries_jobs, List.mem_filter]
    simp
  refine ⟨?_, ?_, ?_, ?_⟩
  · intro jid job e hmem hterm hend hold
    have hexp : convExpired now maxAge job = true := by
      simp only [convExpired, hend, decide_eq_true_eq]
      omega
    refine ⟨?_, ?_, ?_, ?_⟩
    · intro j' hj'
      rw [cleanupConv, sweepConvEntries_jobs, List.mem_filter] at hj'
      have hjj : j' = job := assoc_key_unique hnodup hj'.1 hmem
      subst hjj
      rw [hexp] at hj'
      simp at hj'
    · intro pr hpr
      rw [cleanupConv, sweepConvEntries_tracking_mem] at hpr
      exact hpr.2 (jid, job) hmem hexp rfl
    · intro hp
      rw [cleanupConv, sweepConvEntries_fsys_mem] at hp
      exact (hp.2 (jid, job) hmem hexp).1 rfl
    · intro hu hp
      rw [cleanupConv, sweepConvEntries_fsys_mem] at hp
      exact (hp.2 (jid, job) hmem hexp).2 hu rfl
  · intro jid job e hmem hend hyoung
    have hexp : convExpired now maxAge job = false := by
      simp only [convExpired, hend, decide_eq_false_iff_not]
      omega
    refine ⟨?_, ?_, ?_⟩
    · rw [cleanupConv, sweepConvEntries_jobs, List.mem_filter]
      refine ⟨hmem, ?_⟩
      rw [hexp]
      rfl
    · intro pr hpr
      rw [cleanupConv, sweepConvEntries_tracking_mem]
      refine ⟨hpr, ?_⟩
      rintro ⟨k, j2⟩ hen hexp' heq
      simp only at heq
      subst heq
      have hj2 : j2 = job := assoc_key_unique hnodup hen hmem
      subst hj2
      rw [hexp] at hexp'
      cases hexp'
    · intro p hp hdisj
      rw [cleanupConv, sweepConvEntries_fsys_mem]
      refine ⟨hp, ?_⟩
      intro en hen hexp'
      exact ⟨(hdisj en hen hexp').1, fun _ => (hdisj en hen hexp').2⟩
  · intro jid job e hmem hterm hend hold
    have hexp : downloadExpired now maxAge job = true := by
      simp only [downloadExpired, hend, decide_eq_true_eq]
      omega
    refine ⟨?_, ?_⟩
    · intro j' hj'
      rw [hdn] at hj'
      have hjj : j' = job := assoc_key_unique hdnodup hj'.1 hmem
      subst hjj
      rw [hexp] at hj'
      cases hj'.2
    · intro p hof hp
      rw [sweepDownloadEntries_fsys_mem] at hp
      exact hp.2 (jid, job) hmem hexp (by rw [hof])
  · intro jid job e hmem hend hyoung
    have hexp : downloadExpired now maxAge job = false := by
      simp only [downloadExpired, hend, decide_eq_false_iff_not]
      omega
    refine ⟨?_, ?_⟩
    · rw [hdn]
      exact ⟨hmem, hexp⟩
    · intro p hp hdisj
      rw [sweepDownloadEntries_fsys_mem]
      exact ⟨hp, hdisj⟩

/-- Witness for C6: sweeping at t=1000 with max-age 50, the job that ended
at t=100 disappears from both maps and the disk on each side, while the job
that ended at t=960 keeps its entries and files. -/
theorem c6_witness :
    ("a", exOldConvJob) ∉ (cleanupConv 1000 50 exConvSweepState).jobs ∧
    ("a", initConvProgress) ∉ (cleanupConv 1000 50 exConvSweepState).tracking ∧
    "/out/a.mp4" ∉ (cleanupConv 1000 50 exConvSweepState).fsys ∧
    "uploads/in1.mp4" ∉ (cleanupConv 1000 50 exConvSweepState).fsys ∧
    ("b", exYoungConvJob) ∈ (cleanupConv 1000 50 exConvSweepState).jobs ∧
    ("b", initConvProgress) ∈ (cleanupConv 1000 50 exConvSweepState).tracking ∧
    "/out/b.mp4" ∈ (cleanupConv 1000 50 exConvSweepState).fsys ∧
    ("x", exOldDJob) ∉ (sweepDownloadEntries 1000 50
      [("x", exOldDJob), ("y", exYoungDJob)] ["/dl/x.mp4", "/dl/y.mp4"]).1 ∧
    "/dl/x.mp4" ∉ (sweepDownloadEntries 1000 50
      [("x", exOldDJob), ("y", exYoungDJob)] ["/dl/x.mp4", "/dl/y.mp4"]).2 ∧
    ("y", exYoungDJob) ∈ (sweepDownloadEntries 1000 50
      [("x", exOldDJob), ("y", exYoungDJob)] ["/dl/x.mp4", "/dl/y.mp4"]).1 ∧
    "/dl/y.mp4" ∈ (sweepDownloadEntries 1000 50
      [("x", exOldDJob), ("y", exYoungDJob)] ["/dl/x.mp4", "/dl/y.mp4"]).2 := by
  have c6base := c6_retention_sweep 1000 50 exConvSweepState
    [("x", exOldDJob), ("y", exYoungDJob)] ["/dl/x.mp4", "/dl/y.mp4"]
    (by decide) (by decide)
  have hco := c6base.1 "a" exOldConvJob 100 (by decide) (by decide) rfl
    (by decide)
  have hcy := c6base.2.1 "b" exYoungConvJob 960 (by decide) rfl (by decide)
  have hdo := c6base.2.2.1 "x" exOldDJob 100 (by decide) (by decide) rfl
    (by decide)
  have hdy := c6base.2.2.2 "y" exYoungDJob 960 (by decide) rfl (by decide)
  exact ⟨hco.1 exOldConvJob, hco.2.1 initConvProgress, hco.2.2.1,
    hco.2.2.2 (by decide), hcy.1, hcy.2.1 initConvProgress (by decide),
    hcy.2.2 "/out/b.mp4" (by decide) (by decide), hdo.1 exOldDJob,
    hdo.2 "/dl/x.mp4" rfl, hdy.1,
    hdy.2 "/dl/y.mp4" (by decide) (by decide)⟩

end FlowDownloader
